import Mathlib

/-!
Verification of the mmConnTeams WebSocket service (real-time chat hub).

The development shallowly embeds the state and event handlers of
`src/app.js` (the hub: `activeChannels`, `channelMessagesCache`, the
socket event handlers), `src/controllers/websocketController.js`
(`activeUsers` / `userChannels`) and `src/services/authService.js`
(`authenticateSocket`).  JavaScript `Map`s are modelled as insertion
ordered association lists, `Set`s as insertion ordered duplicate-free
lists; the external `MessageStore` / `AuthVerifier` collaborators are
passed in as `Except`-valued oracles, so each handler is a pure function
from its inputs and the current hub state to the next state, the list of
emitted socket events and the list of store calls it made.
-/

namespace MmConn

abbrev UserId := String
abbrev ChannelId := String
abbrev SessionId := Nat
abbrev MessageId := String
abbrev ReactionId := String

/-- Reaction object as held in a message's `reactions` list. -/
structure Reaction where
  id : ReactionId
  userId : UserId
  reactionType : String
deriving Repr, DecidableEq

/-- Message object as cached by the hub (`channelMessagesCache` values). -/
structure Message where
  id : MessageId
  channelId : ChannelId
  senderId : UserId
  content : String
  attachments : List String
  createdAt : String
  reactions : List Reaction
deriving Repr, DecidableEq

/-- JavaScript truthiness of a possibly-missing string field
(`undefined` and `""` are falsy). -/
def truthy : Option String → Bool
  | none => false
  | some s => s ≠ ""

/-! ### JavaScript `Map` and `Set` as association lists -/

/-- JS `Map.get`: first binding of the key (keys are unique in a JS `Map`). -/
def mapGet {α β : Type} [DecidableEq α] : List (α × β) → α → Option β
  | [], _ => none
  | p :: rest, k => if p.1 = k then some p.2 else mapGet rest k

/-- JS `Map.has`. -/
def mapHas {α β : Type} [DecidableEq α] (l : List (α × β)) (k : α) : Bool :=
  (mapGet l k).isSome

/-- JS `Map.set`: replace the value in place if the key exists, else append. -/
def mapSet {α β : Type} [DecidableEq α] : List (α × β) → α → β → List (α × β)
  | [], k, v => [(k, v)]
  | p :: rest, k, v => if p.1 = k then (k, v) :: rest else p :: mapSet rest k v

/-- JS `Map.delete`. -/
def mapDel {α β : Type} [DecidableEq α] : List (α × β) → α → List (α × β)
  | [], _ => []
  | p :: rest, k => if p.1 = k then mapDel rest k else p :: mapDel rest k

/-- JS `Set.add`: append if not already present. -/
def setAdd {α : Type} [DecidableEq α] (s : List α) (x : α) : List α :=
  if x ∈ s then s else s ++ [x]

/-- JS `Set.delete`. -/
def setDel {α : Type} [DecidableEq α] (s : List α) (x : α) : List α :=
  s.filter (fun y => y ≠ x)

/-! ### Hub state (`app.js` module-level maps) -/

/-- The hub's mutable state: `activeChannels` (channel id → set of user
ids), `channelMessagesCache` (channel id → message list) and the multiset
of pending 5-minute expiry timers scheduled by the join handler
(each timer, when it fires, runs `channelMessagesCache.delete(cacheKey)`). -/
structure Hub where
  activeChannels : List (ChannelId × List UserId)
  cache : List (ChannelId × List Message)
  timers : List ChannelId
deriving Repr, DecidableEq

def Hub.init : Hub := ⟨[], [], []⟩

/-- Observer `membersOf C`: the channel's member set, empty if the key is absent. -/
def membersOf (h : Hub) (c : ChannelId) : List UserId :=
  (mapGet h.activeChannels c).getD []

/-! ### Emitted socket events and store calls -/

/-- Outbound socket events the handlers emit.  `errOut` is
`socket.emit("error", {type?, message})` to the calling session only;
`userJoined`, `userLeft`, `userTyping` are `socket.to(room)` broadcasts
(others in the channel); `msgBroadcast` and `reactionUpdate` are
`io.to(room)` broadcasts (everyone in the channel). -/
inductive Emit where
  | errOut (ty : Option String) (msg : String)
  | userJoined (cid : ChannelId) (uid : UserId) (uname : String)
  | channelHistory (cid : ChannelId) (msgs : List Message)
  | channelJoined (cid : ChannelId) (activeUsers : List UserId)
  | userLeft (cid : ChannelId) (uid : UserId)
  | msgBroadcast (cid : ChannelId) (m : Message)
  | messageSent (mid : MessageId)
  | reactionUpdate (cid : ChannelId) (rid : ReactionId) (mid : MessageId)
      (uid : UserId) (rty : String) (action : String)
  | userTyping (cid : ChannelId) (uid : UserId) (uname : String)
      (isTyping : Option Bool)
deriving Repr, DecidableEq

/-- Calls made to the external `MessageStore` collaborator. -/
inductive StoreCall where
  | fetchMessages (cid : ChannelId)
  | createMsg (cid : ChannelId) (content : String)
  | addReact (mid : MessageId) (uid : UserId) (rty : String)
  | removeReact (mid : MessageId) (rid : ReactionId) (uid : UserId) (rty : String)
deriving Repr, DecidableEq

/-- Result of one handler invocation. -/
structure HandlerOut where
  hub : Hub
  out : List Emit
  calls : List StoreCall
deriving Repr, DecidableEq

/-! ### Event handlers (`app.js`, `io.on("connection")` block)

Each handler takes the calling session's identity (`uid`, `uname`), the
payload fields as possibly-missing strings, the outcome of any
`MessageStore` call it would make as an `Except` oracle, and the current
hub state. -/

/-- Handler for `socket.on("join-channel")`: validate, add the user to the channel's
member set (creating it if absent), broadcast `user-joined`, then serve
history through the cache (read-through with a 5-minute expiry timer
scheduled on a miss), and confirm with `channel-joined`. -/
def joinChannel (uid : UserId) (uname : String) (channelId : Option ChannelId)
    (fetch : Except Unit (List Message)) (h : Hub) : HandlerOut :=
  if ¬ truthy channelId then
    ⟨h, [Emit.errOut none "Channel ID is required"], []⟩
  else
    let cid := channelId.getD ""
    let members0 := (mapGet h.activeChannels cid).getD []
    let ac := mapSet h.activeChannels cid (setAdd members0 uid)
    if mapHas h.cache cid then
      let messages := (mapGet h.cache cid).getD []
      ⟨⟨ac, h.cache, h.timers⟩,
        [Emit.userJoined cid uid uname, Emit.channelHistory cid messages,
         Emit.channelJoined cid (setAdd members0 uid)], []⟩
    else
      match fetch with
      | .ok msgs =>
          ⟨⟨ac, mapSet h.cache cid msgs, h.timers ++ [cid]⟩,
            [Emit.userJoined cid uid uname, Emit.channelHistory cid msgs,
             Emit.channelJoined cid (setAdd members0 uid)],
            [StoreCall.fetchMessages cid]⟩
      | .error _ =>
          ⟨⟨ac, h.cache, h.timers⟩,
            [Emit.userJoined cid uid uname,
             Emit.errOut (some "FETCH_MESSAGES_ERROR")
               "Failed to fetch channel messages",
             Emit.channelJoined cid (setAdd members0 uid)],
            [StoreCall.fetchMessages cid]⟩

/-- Handler for `socket.on("leave-channel")`: only acts when `channelId` is truthy and
the channel-member table has the key; removes the user, deletes the key if
the set became empty, and broadcasts `user-left`.  Otherwise a silent
no-op. -/
def leaveChannel (uid : UserId) (channelId : Option ChannelId) (h : Hub) :
    HandlerOut :=
  let cid := channelId.getD ""
  if truthy channelId ∧ mapHas h.activeChannels cid then
    let s := (mapGet h.activeChannels cid).getD []
    let s1 := setDel s uid
    let ac := if s1.length = 0 then mapDel h.activeChannels cid
              else mapSet h.activeChannels cid s1
    ⟨⟨ac, h.cache, h.timers⟩, [Emit.userLeft cid uid], []⟩
  else ⟨h, [], []⟩

/-- Handler for `socket.on("new-message")`: validate, persist via
`MessageStore.createMessage`; on success append to the cache entry if one
exists, broadcast `message`, confirm `message-sent`; on failure emit an
error to the sender only. -/
def newMessage (uid : UserId) (channelId content : Option String)
    (attachments : List String) (create : Except Unit Message) (h : Hub) :
    HandlerOut :=
  if ¬ (truthy channelId ∧ truthy content) then
    ⟨h, [Emit.errOut none "Channel ID and content are required"], []⟩
  else
    let cid := channelId.getD ""
    match create with
    | .error _ =>
        ⟨h, [Emit.errOut (some "SAVE_MESSAGE_ERROR") "Failed to save message"],
          [StoreCall.createMsg cid (content.getD "")]⟩
    | .ok saved =>
        let cache1 :=
          if mapHas h.cache cid then
            mapSet h.cache cid ((mapGet h.cache cid).getD [] ++ [saved])
          else h.cache
        ⟨⟨h.activeChannels, cache1, h.timers⟩,
          [Emit.msgBroadcast cid saved, Emit.messageSent saved.id],
          [StoreCall.createMsg cid (content.getD "")]⟩

/-- The cache lookup the `add-reaction` handler performs: the first
reaction by `uid` of type `rty` on the cached copy of message `mid`, if
the channel has a cache entry holding that message. -/
def findExisting (h : Hub) (cid : ChannelId) (mid : MessageId) (uid : UserId)
    (rty : String) : Option Reaction :=
  match mapGet h.cache cid with
  | none => none
  | some msgs =>
    match msgs.find? (fun m => m.id = mid) with
    | none => none
    | some m => m.reactions.find? (fun r => r.userId = uid ∧ r.reactionType = rty)

/-- The add branch of the `add-reaction` handler (reached both when no
existing reaction was found and when the removal of an existing one
failed): persist via `MessageStore.addReaction`; on success append the
saved reaction to the cached message and broadcast `action: "add"`; on
failure emit a `REACTION_ERROR` to the caller. `pre` carries store calls
already made on the way here. -/
def addBranch (uid : UserId) (cid mid rty : String) (ad : Except Unit Reaction)
    (pre : List StoreCall) (h : Hub) : HandlerOut :=
  match ad with
  | .error _ =>
      ⟨h, [Emit.errOut (some "REACTION_ERROR") "Failed to add reaction"],
        pre ++ [StoreCall.addReact mid uid rty]⟩
  | .ok saved =>
      let cache1 :=
        if mapHas h.cache cid then
          mapSet h.cache cid (((mapGet h.cache cid).getD []).map (fun m =>
            if m.id = mid then { m with reactions := m.reactions ++ [saved] }
            else m))
        else h.cache
      ⟨⟨h.activeChannels, cache1, h.timers⟩,
        [Emit.reactionUpdate cid saved.id mid uid rty "add"],
        pre ++ [StoreCall.addReact mid uid rty]⟩

/-- Handler for `socket.on("add-reaction")`: toggle semantics.  If the cached shadow
copy shows an existing reaction by this user of this type, try to remove
it (on success: filter it out of the cache and broadcast
`action: "remove"`; on failure: only log and fall through to the add
branch).  Otherwise take the add branch. -/
def addReaction (uid : UserId) (messageId channelId reactionType : Option String)
    (rm : Except Unit Unit) (ad : Except Unit Reaction) (h : Hub) : HandlerOut :=
  if ¬ (truthy messageId ∧ truthy channelId ∧ truthy reactionType) then
    ⟨h, [Emit.errOut none "Message ID, Channel ID and reaction type are required"],
      []⟩
  else
    let mid := messageId.getD ""
    let cid := channelId.getD ""
    let rty := reactionType.getD ""
    match findExisting h cid mid uid rty with
    | some ex =>
      (match rm with
       | .ok _ =>
          let cache1 :=
            if mapHas h.cache cid then
              mapSet h.cache cid (((mapGet h.cache cid).getD []).map (fun m =>
                if m.id = mid then
                  { m with reactions := m.reactions.filter (fun r => r.id ≠ ex.id) }
                else m))
            else h.cache
          ⟨⟨h.activeChannels, cache1, h.timers⟩,
            [Emit.reactionUpdate cid ex.id mid uid rty "remove"],
            [StoreCall.removeReact mid ex.id uid rty]⟩
       | .error _ =>
          addBranch uid cid mid rty ad [StoreCall.removeReact mid ex.id uid rty] h)
    | none => addBranch uid cid mid rty ad [] h

/-- Handler for `socket.on("remove-reaction")`: explicit removal by reaction id. -/
def removeReactionHandler (uid : UserId)
    (messageId reactionId channelId reactionType : Option String)
    (rm : Except Unit Unit) (h : Hub) : HandlerOut :=
  if ¬ (truthy messageId ∧ truthy reactionId ∧ truthy channelId ∧
        truthy reactionType) then
    ⟨h,
      [Emit.errOut none
        "Message ID, Reaction ID, Channel ID and reaction type are required"],
      []⟩
  else
    let mid := messageId.getD ""
    let rid := reactionId.getD ""
    let cid := channelId.getD ""
    let rty := reactionType.getD ""
    match rm with
    | .error _ =>
      ⟨h, [Emit.errOut (some "REACTION_ERROR") "Failed to remove reaction"],
        [StoreCall.removeReact mid rid uid rty]⟩
    | .ok _ =>
      let cache1 :=
        if mapHas h.cache cid then
          mapSet h.cache cid (((mapGet h.cache cid).getD []).map (fun m =>
            if m.id = mid then
              { m with reactions := m.reactions.filter (fun r => r.id ≠ rid) }
            else m))
        else h.cache
      ⟨⟨h.activeChannels, cache1, h.timers⟩,
        [Emit.reactionUpdate cid rid mid uid rty "remove"],
        [StoreCall.removeReact mid rid uid rty]⟩

/-- Handler for `socket.on("refresh-messages")`: validate, delete the cache entry,
refetch; on success store the fresh list (no new expiry timer is
scheduled) and push `channel-history`; on a fetch failure the entry stays
deleted and an error goes to the caller. -/
def refreshMessages (uid : UserId) (channelId : Option String)
    (fetch : Except Unit (List Message)) (h : Hub) : HandlerOut :=
  if ¬ truthy channelId then
    ⟨h, [Emit.errOut none "Channel ID is required"], []⟩
  else
    let cid := channelId.getD ""
    let cache0 := mapDel h.cache cid
    match fetch with
    | .error _ =>
      ⟨⟨h.activeChannels, cache0, h.timers⟩,
        [Emit.errOut (some "FETCH_MESSAGES_ERROR")
          "Failed to refresh channel messages"],
        [StoreCall.fetchMessages cid]⟩
    | .ok msgs =>
      ⟨⟨h.activeChannels, mapSet cache0 cid msgs, h.timers⟩,
        [Emit.channelHistory cid msgs], [StoreCall.fetchMessages cid]⟩

/-- Handler for `socket.on("typing")`: broadcasts `user-typing` to the rest of the
channel when `channelId` is truthy; otherwise does nothing (no error,
and `isTyping` is never validated). -/
def typingHandler (uid : UserId) (uname : String) (channelId : Option String)
    (isTyping : Option Bool) (h : Hub) : HandlerOut :=
  if truthy channelId then
    ⟨h, [Emit.userTyping (channelId.getD "") uid uname isTyping], []⟩
  else ⟨h, [], []⟩

/-- Loop body of the disconnect handler for one `[channelId, users]`
entry: if the set contains the user, remove them and drop the channel key
when the set became empty; otherwise keep the entry untouched. -/
def discChan (uid : UserId) (p : ChannelId × List UserId) :
    Option (ChannelId × List UserId) :=
  if uid ∈ p.2 then
    (if (setDel p.2 uid).length = 0 then none else some (p.1, setDel p.2 uid))
  else some p

/-- Handler for `socket.on("disconnect")`: for every channel whose member set contains
the user, remove the user, broadcast `user-left` for that channel, and
delete the channel key if the set became empty. -/
def disconnectCleanup (uid : UserId) (h : Hub) : HandlerOut :=
  ⟨⟨h.activeChannels.filterMap (discChan uid), h.cache, h.timers⟩,
    h.activeChannels.filterMap (fun p =>
      if uid ∈ p.2 then some (Emit.userLeft p.1 uid) else none),
    []⟩

/-- One scheduled expiry timer for `cid` firing:
`channelMessagesCache.delete(cacheKey)`, unconditionally. -/
def fireExpiry (cid : ChannelId) (h : Hub) : Hub :=
  ⟨h.activeChannels, mapDel h.cache cid, h.timers.erase cid⟩

/-! ### Event traces

An inbound event, tagged with the session that issued it and the outcome
of any store call the handler would make.  `ident` / `uname` map each
session id to the identity derived once at authentication. -/

inductive Ev where
  | join (s : SessionId) (cid : Option ChannelId) (fetch : Except Unit (List Message))
  | leave (s : SessionId) (cid : Option ChannelId)
  | newMsg (s : SessionId) (cid content : Option String) (att : List String)
      (res : Except Unit Message)
  | addReact (s : SessionId) (mid cid rty : Option String)
      (rm : Except Unit Unit) (ad : Except Unit Reaction)
  | rmReact (s : SessionId) (mid rid cid rty : Option String)
      (rm : Except Unit Unit)
  | refresh (s : SessionId) (cid : Option String) (fetch : Except Unit (List Message))
  | typing (s : SessionId) (cid : Option String) (isTyping : Option Bool)
  | fire (cid : ChannelId)
  | disc (s : SessionId)

/-- Dispatch one event to its handler, keeping only the state. -/
def stepEv (ident : SessionId → UserId) (uname : SessionId → String)
    (e : Ev) (h : Hub) : Hub :=
  match e with
  | .join s cid f => (joinChannel (ident s) (uname s) cid f h).hub
  | .leave s cid => (leaveChannel (ident s) cid h).hub
  | .newMsg s cid content att res => (newMessage (ident s) cid content att res h).hub
  | .addReact s mid cid rty rm ad => (addReaction (ident s) mid cid rty rm ad h).hub
  | .rmReact s mid rid cid rty rm =>
      (removeReactionHandler (ident s) mid rid cid rty rm h).hub
  | .refresh s cid f => (refreshMessages (ident s) cid f h).hub
  | .typing s cid isTyping => (typingHandler (ident s) (uname s) cid isTyping h).hub
  | .fire cid => fireExpiry cid h
  | .disc s => (disconnectCleanup (ident s) h).hub

/-- Run a trace of events from a starting hub state. -/
def exec (ident : SessionId → UserId) (uname : SessionId → String)
    (t : List Ev) (h : Hub) : Hub :=
  t.foldl (fun h e => stepEv ident uname e h) h

/-! ### `websocketController.js` registry -/

/-- The controller's module-level maps: `activeUsers` (user id → socket)
and `userChannels` (user id → list of channel rooms). -/
structure Ctrl where
  activeUsers : List (UserId × SessionId)
  userChannels : List (UserId × List String)
deriving Repr, DecidableEq

def Ctrl.init : Ctrl := ⟨[], []⟩

/-- Controller `io.on("connection")` body: `activeUsers.set(socket.user.id, socket)`. -/
def ctrlConnect (uid : UserId) (sid : SessionId) (st : Ctrl) : Ctrl :=
  ⟨mapSet st.activeUsers uid sid, st.userChannels⟩

/-- Controller handler for `socket.on("subscribe")`: validate team and channel id, leave the
rooms previously recorded for this user id, join the new room, and record
it as the user's single-element room list. -/
def ctrlSubscribe (uid : UserId) (teamId channelId : Option String) (st : Ctrl) :
    Ctrl :=
  if ¬ (truthy teamId ∧ truthy channelId) then st
  else
    let room := "team:" ++ teamId.getD "" ++ ":channel:" ++ channelId.getD ""
    ⟨st.activeUsers, mapSet st.userChannels uid [room]⟩

/-- Controller handler for `socket.on("disconnect")`: delete both registry entries by user id. -/
def ctrlDisconnect (uid : UserId) (st : Ctrl) : Ctrl :=
  ⟨mapDel st.activeUsers uid, mapDel st.userChannels uid⟩

/-! ### `authService.js` (`authenticateSocket` middleware) -/

/-- Claims embedded in the credential, as `jwt.decode` exposes them
(`null` decode is `none`). -/
structure TokenClaims where
  sub : UserId
  name : String
  roles : List String
deriving Repr, DecidableEq

/-- The identity attached to `socket.user` on success. -/
structure AuthUser where
  id : UserId
  name : String
  roles : List String
deriving Repr, DecidableEq

/-- Middleware `authenticateSocket(socket, next)`: reject when no token is present;
ask the verifier (`apiService.validateToken`) and reject when it fails or
answers invalid; only then decode the claims — a `null` decode makes the
`decoded.sub` access throw, which the `catch` turns into a rejection. -/
def authenticateSocket (token : Option String)
    (validate : String → Except String Bool)
    (decode : String → Option TokenClaims) : Except String AuthUser :=
  match token with
  | none => .error "Authentication error: No token provided"
  | some tk =>
    match validate tk with
    | .error m => .error ("Authentication error: " ++ m)
    | .ok isValid =>
      if ¬ isValid then .error "Authentication error: Invalid token"
      else
        match decode tk with
        | none =>
            .error "Authentication error: Cannot read properties of null"
        | some d => .ok ⟨d.sub, d.name, d.roles⟩

/-- A full connection attempt: the middleware runs first; only on success
does the connection handler run and register the session.  On any
rejection the registry is untouched. -/
def connectionAttempt (token : Option String)
    (validate : String → Except String Bool)
    (decode : String → Option TokenClaims)
    (sid : SessionId) (st : Ctrl) : Ctrl × Except String AuthUser :=
  match authenticateSocket token validate decode with
  | .error e => (st, .error e)
  | .ok user => (ctrlConnect user.id sid st, .ok user)

/-- Keys of a `Map`-model association list. -/
def keys {β : Type} (l : List (String × β)) : List String := l.map Prod.fst

/-- Invariant of reachable hub states: channel keys are unique and no
channel maps to an empty member set. -/
def HubInv (h : Hub) : Prop :=
  (keys h.activeChannels).Nodup ∧ ∀ p ∈ h.activeChannels, p.2 ≠ []

/-- Does event `e` make session `s` leave channel `c` (an explicit leave
of `c` or a disconnect of the session)? -/
def isLeaveOrDisc (s : SessionId) (c : ChannelId) : Ev → Bool
  | Ev.leave s' (some c') => s' = s ∧ c' = c
  | Ev.disc s' => s' = s
  | _ => false

/-- Some session of identity `u` issued a join for channel `c` somewhere
in the trace and has neither left `c` nor disconnected since. -/
def SinceJoin (ident : SessionId → UserId) (u : UserId) (c : ChannelId)
    (t : List Ev) : Prop :=
  ∃ t₁ s f t₂, t = t₁ ++ Ev.join s (some c) f :: t₂ ∧ ident s = u ∧
    ∀ e ∈ t₂, isLeaveOrDisc s c e = false

/-- Number of active reactions by `u` of type `rty` on the cached copy of
message `mid` in channel `c` (0 when the channel or message is not
cached). -/
def activeReactions (h : Hub) (c mid : String) (u : UserId) (rty : String) :
    Nat :=
  match mapGet h.cache c with
  | none => 0
  | some msgs =>
    match msgs.find? (fun m => m.id = mid) with
    | none => 0
    | some m =>
      (m.reactions.filter (fun r => r.userId = u ∧ r.reactionType = rty)).length

/-! ### Lemmas on the `Map` / `Set` models -/

theorem mapGet_mapSet_self {β : Type} (l : List (String × β)) (k : String) (v : β) :
    mapGet (mapSet l k v) k = some v := by
  induction l with
  | nil => simp [mapSet, mapGet]
  | cons p rest ih =>
    by_cases h : p.1 = k
    · simp [mapSet, mapGet, h]
    · simp [mapSet, mapGet, h, ih]

theorem mapGet_mapSet_ne {β : Type} (l : List (String × β)) (k k' : String) (v : β)
    (h : k' ≠ k) : mapGet (mapSet l k v) k' = mapGet l k' := by
  have h' : ¬ k = k' := fun hh => h hh.symm
  induction l with
  | nil => simp [mapSet, mapGet, h']
  | cons p rest ih =>
    by_cases hp : p.1 = k
    · subst hp
      simp [mapSet, mapGet, h']
    · by_cases hp' : p.1 = k'
      · simp [mapSet, mapGet, hp, hp', h]
      · simp [mapSet, mapGet, hp, hp', ih]

theorem mapGet_mapDel_self {β : Type} (l : List (String × β)) (k : String) :
    mapGet (mapDel l k) k = none := by
  induction l with
  | nil => simp [mapDel, mapGet]
  | cons p rest ih =>
    by_cases h : p.1 = k
    · simp [mapDel, h, ih]
    · simp [mapDel, mapGet, h, ih]

theorem mapGet_mapDel_ne {β : Type} (l : List (String × β)) (k k' : String)
    (h : k' ≠ k) : mapGet (mapDel l k) k' = mapGet l k' := by
  have h' : ¬ k = k' := fun hh => h hh.symm
  induction l with
  | nil => simp [mapDel]
  | cons p rest ih =>
    by_cases hp : p.1 = k
    · subst hp
      simp [mapDel, mapGet, h', ih]
    · simp [mapDel, mapGet, hp, ih]

theorem mem_setAdd_self {α : Type} [DecidableEq α] (s : List α) (x : α) :
    x ∈ setAdd s x := by
  by_cases h : x ∈ s <;> simp [setAdd, h]

theorem mem_setAdd_iff {α : Type} [DecidableEq α] (s : List α) (x y : α) :
    y ∈ setAdd s x ↔ y ∈ s ∨ y = x := by
  by_cases h : x ∈ s
  · simp only [setAdd, if_pos h]
    constructor
    · exact Or.inl
    · rintro (hy | rfl) <;> [exact hy; exact h]
  · simp [setAdd, if_neg h]

theorem mem_setDel_iff {α : Type} [DecidableEq α] (s : List α) (x y : α) :
    y ∈ setDel s x ↔ y ∈ s ∧ y ≠ x := by
  simp [setDel]

theorem mem_mapSet {β : Type} (l : List (String × β)) (k : String) (v : β)
    (q : String × β) (hq : q ∈ mapSet l k v) : q = (k, v) ∨ q ∈ l := by
  induction l with
  | nil => simpa [mapSet] using hq
  | cons p rest ih =>
    by_cases hp : p.1 = k
    · simp only [mapSet, if_pos hp, List.mem_cons] at hq
      rcases hq with h | h
      · exact Or.inl h
      · exact Or.inr (List.mem_cons_of_mem _ h)
    · simp only [mapSet, if_neg hp, List.mem_cons] at hq
      rcases hq with h | h
      · exact Or.inr (by simp [h])
      · rcases ih h with h' | h'
        · exact Or.inl h'
        · exact Or.inr (List.mem_cons_of_mem _ h')

theorem mem_mapDel {β : Type} (l : List (String × β)) (k : String)
    (q : String × β) (hq : q ∈ mapDel l k) : q ∈ l := by
  induction l with
  | nil => simp [mapDel] at hq
  | cons p rest ih =>
    by_cases hp : p.1 = k
    · simp only [mapDel, if_pos hp] at hq
      exact List.mem_cons_of_mem _ (ih hq)
    · simp only [mapDel, if_neg hp, List.mem_cons] at hq
      rcases hq with h | h
      · simp [h]
      · exact List.mem_cons_of_mem _ (ih h)


theorem mem_keys_mapSet {β : Type} (l : List (String × β)) (k k' : String) (v : β) :
    k' ∈ keys (mapSet l k v) ↔ k' ∈ keys l ∨ k' = k := by
  induction l with
  | nil => simp [mapSet, keys]
  | cons p rest ih =>
    by_cases hp : p.1 = k
    · simp only [mapSet, if_pos hp, keys, List.map_cons, List.mem_cons] at ih ⊢
      rw [hp]
      tauto
    · simp only [mapSet, if_neg hp, keys, List.map_cons, List.mem_cons] at ih ⊢
      rw [ih]
      tauto

theorem keysND_mapSet {β : Type} (l : List (String × β)) (k : String) (v : β)
    (h : (keys l).Nodup) : (keys (mapSet l k v)).Nodup := by
  induction l with
  | nil => simp [mapSet, keys]
  | cons p rest ih =>
    simp only [keys, List.map_cons, List.nodup_cons] at h
    by_cases hp : p.1 = k
    · simp only [mapSet, if_pos hp, keys, List.map_cons, List.nodup_cons]
      rw [← hp]
      exact h
    · simp only [mapSet, if_neg hp, keys, List.map_cons, List.nodup_cons]
      refine ⟨fun hmem => ?_, ih h.2⟩
      have := (mem_keys_mapSet rest k p.1 v).mp hmem
      simp only [keys] at this
      rcases this with hh | hh
      · exact h.1 hh
      · exact hp hh

theorem mapDel_sublist {β : Type} (l : List (String × β)) (k : String) :
    (mapDel l k).Sublist l := by
  induction l with
  | nil => simp [mapDel]
  | cons p rest ih =>
    by_cases hp : p.1 = k
    · simp only [mapDel, if_pos hp]
      exact ih.cons _
    · simp only [mapDel, if_neg hp]
      exact ih.cons₂ _

theorem keysND_mapDel {β : Type} (l : List (String × β)) (k : String)
    (h : (keys l).Nodup) : (keys (mapDel l k)).Nodup :=
  ((mapDel_sublist l k).map Prod.fst).nodup h

theorem mem_keys_of_mem_getD {β : Type} (l : List (String × β)) (k : String)
    (hg : mapGet l k ≠ none) : k ∈ keys l := by
  induction l with
  | nil => simp [mapGet] at hg
  | cons p rest ih =>
    by_cases hp : p.1 = k
    · simp [keys, hp]
    · simp only [mapGet, if_neg hp] at hg
      simp only [keys, List.map_cons, List.mem_cons]
      exact Or.inr (ih hg)

/-! ### Effect of each handler on `activeChannels` -/

theorem joinChannel_hub_of_not_truthy (uid : UserId) (un : String)
    (cid : Option ChannelId) (f : Except Unit (List Message)) (h : Hub)
    (hc : ¬ truthy cid) : (joinChannel uid un cid f h).hub = h := by
  simp [joinChannel, hc]

theorem joinChannel_ac (uid : UserId) (un : String) (c : ChannelId)
    (f : Except Unit (List Message)) (h : Hub) (hc : c ≠ "") :
    (joinChannel uid un (some c) f h).hub.activeChannels =
      mapSet h.activeChannels c (setAdd (membersOf h c) uid) := by
  have hc' : truthy (some c) := by simp [truthy, hc]
  simp only [joinChannel, hc', not_true_eq_false, if_false, Option.getD_some,
    membersOf]
  split
  · rfl
  · split <;> rfl

theorem leaveChannel_hub_of_miss (uid : UserId) (cid : Option ChannelId) (h : Hub)
    (hc : ¬ (truthy cid ∧ mapHas h.activeChannels (cid.getD ""))) :
    (leaveChannel uid cid h).hub = h := by
  simp only [leaveChannel]
  rw [if_neg]
  exact fun hh => hc ⟨hh.1, hh.2⟩

theorem leaveChannel_ac (uid : UserId) (c : ChannelId) (h : Hub)
    (hc : truthy (some c)) (hh : mapHas h.activeChannels c) :
    (leaveChannel uid (some c) h).hub.activeChannels =
      (if (setDel (membersOf h c) uid).length = 0 then mapDel h.activeChannels c
       else mapSet h.activeChannels c (setDel (membersOf h c) uid)) := by
  simp only [leaveChannel, Option.getD_some, membersOf]
  rw [if_pos ⟨hc, hh⟩]

theorem newMessage_ac (uid : UserId) (cid content : Option String)
    (att : List String) (res : Except Unit Message) (h : Hub) :
    (newMessage uid cid content att res h).hub.activeChannels =
      h.activeChannels := by
  simp only [newMessage]
  split
  · rfl
  · split <;> rfl

theorem addBranch_ac (uid : UserId) (cid mid rty : String)
    (ad : Except Unit Reaction) (pre : List StoreCall) (h : Hub) :
    (addBranch uid cid mid rty ad pre h).hub.activeChannels =
      h.activeChannels := by
  simp only [addBranch]
  split <;> rfl

theorem addReaction_ac (uid : UserId) (mid cid rty : Option String)
    (rm : Except Unit Unit) (ad : Except Unit Reaction) (h : Hub) :
    (addReaction uid mid cid rty rm ad h).hub.activeChannels =
      h.activeChannels := by
  simp only [addReaction]
  split
  · rfl
  · split
    · split
      · rfl
      · exact addBranch_ac ..
    · exact addBranch_ac ..

theorem removeReactionHandler_ac (uid : UserId) (mid rid cid rty : Option String)
    (rm : Except Unit Unit) (h : Hub) :
    (removeReactionHandler uid mid rid cid rty rm h).hub.activeChannels =
      h.activeChannels := by
  simp only [removeReactionHandler]
  split
  · rfl
  · split <;> rfl

theorem refreshMessages_ac (uid : UserId) (cid : Option String)
    (f : Except Unit (List Message)) (h : Hub) :
    (refreshMessages uid cid f h).hub.activeChannels = h.activeChannels := by
  simp only [refreshMessages]
  split
  · rfl
  · split <;> rfl

theorem typingHandler_ac (uid : UserId) (un : String) (cid : Option String)
    (isTyping : Option Bool) (h : Hub) :
    (typingHandler uid un cid isTyping h).hub.activeChannels =
      h.activeChannels := by
  simp only [typingHandler]
  split <;> rfl

theorem setAdd_ne_nil {α : Type} [DecidableEq α] (s : List α) (x : α) :
    setAdd s x ≠ [] :=
  List.ne_nil_of_mem (mem_setAdd_self s x)

theorem keys_filterMap_discChan_sublist (uid : UserId)
    (l : List (ChannelId × List UserId)) :
    (keys (l.filterMap (discChan uid))).Sublist (keys l) := by
  induction l with
  | nil => simp [keys]
  | cons p rest ih =>
    by_cases hm : uid ∈ p.2
    · by_cases hz : (setDel p.2 uid).length = 0
      · simp only [List.filterMap_cons, discChan, if_pos hm, if_pos hz]
        exact ih.cons _
      · simp only [List.filterMap_cons, discChan, if_pos hm, if_neg hz, keys,
          List.map_cons]
        exact (ih.cons₂ _ : _)
    · simp only [List.filterMap_cons, discChan, if_neg hm, keys, List.map_cons]
      exact (ih.cons₂ _ : _)

theorem mem_members_filterMap_discChan (uid u : UserId) (c : ChannelId)
    (l : List (ChannelId × List UserId)) (hnd : (keys l).Nodup)
    (hu : u ∈ (mapGet (l.filterMap (discChan uid)) c).getD []) :
    u ∈ (mapGet l c).getD [] ∧ u ≠ uid := by
  induction l with
  | nil => simp [mapGet] at hu
  | cons p rest ih =>
    simp only [keys, List.map_cons, List.nodup_cons] at hnd
    have ihnd := hnd.2
    by_cases hm : uid ∈ p.2
    · by_cases hz : (setDel p.2 uid).length = 0
      · simp only [List.filterMap_cons, discChan, if_pos hm, if_pos hz] at hu
        have hrest := ih ihnd hu
        have hne : mapGet rest c ≠ none := by
          intro hnone
          rw [hnone] at hrest
          simp at hrest
        have hc : c ∈ keys rest := mem_keys_of_mem_getD rest c hne
        have hpc : ¬ p.1 = c := fun hh => hnd.1 (hh ▸ hc)
        simp only [mapGet, if_neg hpc]
        exact hrest
      · simp only [List.filterMap_cons, discChan, if_pos hm, if_neg hz] at hu
        by_cases hpc : p.1 = c
        · simp only [mapGet, if_pos hpc, Option.getD_some] at hu ⊢
          rw [mem_setDel_iff] at hu
          exact hu
        · simp only [mapGet, if_neg hpc] at hu ⊢
          exact ih ihnd hu
    · simp only [List.filterMap_cons, discChan, if_neg hm] at hu
      by_cases hpc : p.1 = c
      · simp only [mapGet, if_pos hpc, Option.getD_some] at hu ⊢
        exact ⟨hu, fun hh => hm (hh ▸ hu)⟩
      · simp only [mapGet, if_neg hpc] at hu ⊢
        exact ih ihnd hu

/-! ### Hub invariant: unique channel keys, no empty member sets -/


theorem hubInv_init : HubInv Hub.init := by
  constructor <;> simp [Hub.init, keys]

theorem hubInv_of_ac_eq {h h' : Hub}
    (hac : h'.activeChannels = h.activeChannels) (hi : HubInv h) : HubInv h' := by
  rw [HubInv, hac]
  exact hi

theorem hubInv_stepEv (ident : SessionId → UserId) (un : SessionId → String)
    (e : Ev) (h : Hub) (hi : HubInv h) : HubInv (stepEv ident un e h) := by
  cases e with
  | join s cid f =>
    cases cid with
    | none =>
      exact hubInv_of_ac_eq
        (congrArg Hub.activeChannels
          (joinChannel_hub_of_not_truthy (ident s) (un s) none f h
            (by simp [truthy]))) hi
    | some c =>
      by_cases hc : c = ""
      · subst hc
        exact hubInv_of_ac_eq
          (congrArg Hub.activeChannels
            (joinChannel_hub_of_not_truthy (ident s) (un s) (some "") f h
              (by simp [truthy]))) hi
      · have hac : (stepEv ident un (Ev.join s (some c) f) h).activeChannels =
            mapSet h.activeChannels c (setAdd (membersOf h c) (ident s)) :=
          joinChannel_ac (ident s) (un s) c f h hc
        constructor
        · rw [hac]
          exact keysND_mapSet _ c _ hi.1
        · rw [hac]
          intro q hq
          rcases mem_mapSet _ c _ q hq with rfl | hmem
          · exact setAdd_ne_nil _ _
          · exact hi.2 q hmem
  | leave s cid =>
    by_cases hcond : truthy cid ∧ mapHas h.activeChannels (cid.getD "")
    · cases cid with
      | none => simp [truthy] at hcond
      | some c =>
        have hac : (stepEv ident un (Ev.leave s (some c)) h).activeChannels =
            (if (setDel (membersOf h c) (ident s)).length = 0 then
              mapDel h.activeChannels c
             else mapSet h.activeChannels c (setDel (membersOf h c) (ident s))) :=
          leaveChannel_ac (ident s) c h hcond.1 hcond.2
        constructor
        · rw [hac]
          split
          · exact keysND_mapDel _ _ hi.1
          · exact keysND_mapSet _ _ _ hi.1
        · rw [hac]
          split
          · exact fun q hq => hi.2 q (mem_mapDel _ _ q hq)
          · rename_i hlen
            intro q hq
            rcases mem_mapSet _ _ _ q hq with rfl | hmem
            · intro hnil
              apply hlen
              have hnil' : setDel (membersOf h c) (ident s) = [] := hnil
              rw [hnil']
              rfl
            · exact hi.2 q hmem
    · exact hubInv_of_ac_eq
        (congrArg Hub.activeChannels
          (leaveChannel_hub_of_miss (ident s) cid h hcond)) hi
  | newMsg s cid content att res => exact hubInv_of_ac_eq (newMessage_ac ..) hi
  | addReact s mid cid rty rm ad => exact hubInv_of_ac_eq (addReaction_ac ..) hi
  | rmReact s mid rid cid rty rm =>
      exact hubInv_of_ac_eq (removeReactionHandler_ac ..) hi
  | refresh s cid f => exact hubInv_of_ac_eq (refreshMessages_ac ..) hi
  | typing s cid isTyping => exact hubInv_of_ac_eq (typingHandler_ac ..) hi
  | fire cid => exact hubInv_of_ac_eq rfl hi
  | disc s =>
    refine ⟨(keys_filterMap_discChan_sublist (ident s) h.activeChannels).nodup hi.1,
      fun q hq => ?_⟩
    have hq' : q ∈ h.activeChannels.filterMap (discChan (ident s)) := hq
    rw [List.mem_filterMap] at hq'
    obtain ⟨p, hp, hfp⟩ := hq'
    by_cases hm : ident s ∈ p.2
    · by_cases hz : (setDel p.2 (ident s)).length = 0
      · simp [discChan, hm, hz] at hfp
      · simp only [discChan, if_pos hm, if_neg hz, Option.some.injEq] at hfp
        rw [← hfp]
        intro hnil
        apply hz
        have hnil' : setDel p.2 (ident s) = [] := hnil
        rw [hnil']
        rfl
    · simp only [discChan, if_neg hm, Option.some.injEq] at hfp
      exact hfp ▸ hi.2 p hp

theorem exec_nil (ident : SessionId → UserId) (un : SessionId → String) (h : Hub) :
    exec ident un [] h = h := rfl

theorem exec_snoc (ident : SessionId → UserId) (un : SessionId → String)
    (t : List Ev) (e : Ev) (h : Hub) :
    exec ident un (t ++ [e]) h = stepEv ident un e (exec ident un t h) := by
  simp [exec, List.foldl_append]

theorem hubInv_exec_from (ident : SessionId → UserId) (un : SessionId → String)
    (t : List Ev) : ∀ h : Hub, HubInv h → HubInv (exec ident un t h) := by
  induction t with
  | nil => exact fun h hi => hi
  | cons e rest ih => exact fun h hi => ih _ (hubInv_stepEv ident un e h hi)

theorem hubInv_exec (ident : SessionId → UserId) (un : SessionId → String)
    (t : List Ev) : HubInv (exec ident un t Hub.init) :=
  hubInv_exec_from ident un t Hub.init hubInv_init

/-! ### The membership lifecycle over traces -/



theorem sinceJoin_snoc {ident : SessionId → UserId} {u : UserId}
    {c : ChannelId} {t : List Ev} (hsj : SinceJoin ident u c t) (e : Ev)
    (he : ∀ s, ident s = u → isLeaveOrDisc s c e = false) :
    SinceJoin ident u c (t ++ [e]) := by
  obtain ⟨t₁, s, f, t₂, rfl, hid, hno⟩ := hsj
  refine ⟨t₁, s, f, t₂ ++ [e], by simp, hid, fun e' he' => ?_⟩
  rcases List.mem_append.mp he' with h1 | h2
  · exact hno e' h1
  · rw [List.mem_singleton] at h2
    subst h2
    exact he s hid

/-- Core trace invariant: an identity is in a channel's member set only if
the channel id is a real (truthy) id and some session of that identity
joined it and has not left or disconnected since. -/
theorem mem_members_exec (ident : SessionId → UserId) (un : SessionId → String)
    (t : List Ev) (u : UserId) (c : ChannelId)
    (hu : u ∈ membersOf (exec ident un t Hub.init) c) :
    c ≠ "" ∧ SinceJoin ident u c t := by
  induction t using List.reverseRecOn with
  | nil => simp [exec_nil, membersOf, Hub.init, mapGet] at hu
  | append_singleton t e ih =>
    rw [exec_snoc] at hu
    set h := exec ident un t Hub.init with hdef
    have hinv : HubInv h := hubInv_exec ident un t
    cases e with
    | join s' cid f =>
      have hext : u ∈ membersOf h c → c ≠ "" ∧
          SinceJoin ident u c (t ++ [Ev.join s' cid f]) := by
        intro hmem
        obtain ⟨hcne, hsj⟩ := ih hmem
        exact ⟨hcne, sinceJoin_snoc hsj _ (fun s hs => by simp [isLeaveOrDisc])⟩
      cases cid with
      | none =>
        simp only [stepEv] at hu
        rw [joinChannel_hub_of_not_truthy (ident s') (un s') none f h
          (by simp [truthy])] at hu
        exact hext hu
      | some c' =>
        by_cases hce : c' = ""
        · subst hce
          simp only [stepEv] at hu
          rw [joinChannel_hub_of_not_truthy (ident s') (un s') (some "") f h
            (by simp [truthy])] at hu
          exact hext hu
        · have hac : (stepEv ident un (Ev.join s' (some c') f) h).activeChannels =
              mapSet h.activeChannels c' (setAdd (membersOf h c') (ident s')) :=
            joinChannel_ac (ident s') (un s') c' f h hce
          by_cases hcc : c' = c
          · subst hcc
            have hm : u ∈ setAdd (membersOf h c') (ident s') := by
              have : membersOf (stepEv ident un (Ev.join s' (some c') f) h) c' =
                  setAdd (membersOf h c') (ident s') := by
                rw [membersOf, hac, mapGet_mapSet_self]
                rfl
              rw [this] at hu
              exact hu
            rcases (mem_setAdd_iff _ _ _).mp hm with hold | hnew
            · exact hext hold
            · exact ⟨hce, t, s', f, [], by simp, hnew.symm, by simp⟩
          · have : membersOf (stepEv ident un (Ev.join s' (some c') f) h) c =
                membersOf h c := by
              rw [membersOf, hac, mapGet_mapSet_ne _ _ _ _ (fun hh => hcc hh.symm)]
              rfl
            rw [this] at hu
            exact hext hu
    | leave s' cid =>
      by_cases hcond : truthy cid ∧ mapHas h.activeChannels (cid.getD "")
      · cases cid with
        | none => simp [truthy] at hcond
        | some c' =>
          have hac : (stepEv ident un (Ev.leave s' (some c')) h).activeChannels =
              (if (setDel (membersOf h c') (ident s')).length = 0 then
                mapDel h.activeChannels c'
               else mapSet h.activeChannels c'
                 (setDel (membersOf h c') (ident s'))) :=
            leaveChannel_ac (ident s') c' h hcond.1 hcond.2
          by_cases hcc : c' = c
          · subst hcc
            by_cases hlen : (setDel (membersOf h c') (ident s')).length = 0
            · have : membersOf (stepEv ident un (Ev.leave s' (some c')) h) c' =
                  [] := by
                rw [membersOf, hac, if_pos hlen, mapGet_mapDel_self]
                rfl
              rw [this] at hu
              simp at hu
            · have : membersOf (stepEv ident un (Ev.leave s' (some c')) h) c' =
                  setDel (membersOf h c') (ident s') := by
                rw [membersOf, hac, if_neg hlen, mapGet_mapSet_self]
                rfl
              rw [this, mem_setDel_iff] at hu
              obtain ⟨hcne, hsj⟩ := ih hu.1
              refine ⟨hcne, sinceJoin_snoc hsj _ (fun s hs => ?_)⟩
              have hss : ¬ s' = s := fun hh => hu.2 (by rw [hh, hs])
              simp [isLeaveOrDisc, hss]
          · have : membersOf (stepEv ident un (Ev.leave s' (some c')) h) c =
                membersOf h c := by
              rw [membersOf, hac]
              split
              · rw [mapGet_mapDel_ne _ _ _ (fun hh => hcc hh.symm)]
                rfl
              · rw [mapGet_mapSet_ne _ _ _ _ (fun hh => hcc hh.symm)]
                rfl
            rw [this] at hu
            obtain ⟨hcne, hsj⟩ := ih hu
            refine ⟨hcne, sinceJoin_snoc hsj _ (fun s hs => ?_)⟩
            simp [isLeaveOrDisc, hcc]
      · simp only [stepEv] at hu
        rw [leaveChannel_hub_of_miss (ident s') cid h hcond] at hu
        obtain ⟨hcne, hsj⟩ := ih hu
        refine ⟨hcne, sinceJoin_snoc hsj _ (fun s hs => ?_)⟩
        cases cid with
        | none => simp [isLeaveOrDisc]
        | some c' =>
          by_cases hcc : c' = c
          · subst hcc
            exfalso
            apply hcond
            refine ⟨by simp [truthy, hcne], ?_⟩
            have : mapGet h.activeChannels c' ≠ none := by
              intro hnone
              rw [membersOf, hnone] at hu
              simp at hu
            simp only [mapHas, Option.getD_some]
            rcases Option.ne_none_iff_exists.mp this with ⟨v, hv⟩
            rw [← hv]
            rfl
          · simp [isLeaveOrDisc, hcc]
    | disc s' =>
      have hu' : u ∈ (mapGet (h.activeChannels.filterMap (discChan (ident s'))) c).getD [] := hu
      have hres := mem_members_filterMap_discChan (ident s') u c h.activeChannels
        hinv.1 hu'
      obtain ⟨hcne, hsj⟩ := ih hres.1
      refine ⟨hcne, sinceJoin_snoc hsj _ (fun s hs => ?_)⟩
      have hss : ¬ s' = s := fun hh => hres.2 (by rw [hh, hs])
      simp [isLeaveOrDisc, hss]
    | newMsg s' cid content att res =>
      have : membersOf (stepEv ident un (Ev.newMsg s' cid content att res) h) c =
          membersOf h c := by
        simp only [stepEv]
        rw [membersOf, newMessage_ac]
        rfl
      rw [this] at hu
      obtain ⟨hcne, hsj⟩ := ih hu
      exact ⟨hcne, sinceJoin_snoc hsj _ (fun s hs => by simp [isLeaveOrDisc])⟩
    | addReact s' mid cid rty rm ad =>
      have : membersOf (stepEv ident un (Ev.addReact s' mid cid rty rm ad) h) c =
          membersOf h c := by
        simp only [stepEv]
        rw [membersOf, addReaction_ac]
        rfl
      rw [this] at hu
      obtain ⟨hcne, hsj⟩ := ih hu
      exact ⟨hcne, sinceJoin_snoc hsj _ (fun s hs => by simp [isLeaveOrDisc])⟩
    | rmReact s' mid rid cid rty rm =>
      have : membersOf (stepEv ident un (Ev.rmReact s' mid rid cid rty rm) h) c =
          membersOf h c := by
        simp only [stepEv]
        rw [membersOf, removeReactionHandler_ac]
        rfl
      rw [this] at hu
      obtain ⟨hcne, hsj⟩ := ih hu
      exact ⟨hcne, sinceJoin_snoc hsj _ (fun s hs => by simp [isLeaveOrDisc])⟩
    | refresh s' cid f =>
      have : membersOf (stepEv ident un (Ev.refresh s' cid f) h) c =
          membersOf h c := by
        simp only [stepEv]
        rw [membersOf, refreshMessages_ac]
        rfl
      rw [this] at hu
      obtain ⟨hcne, hsj⟩ := ih hu
      exact ⟨hcne, sinceJoin_snoc hsj _ (fun s hs => by simp [isLeaveOrDisc])⟩
    | typing s' cid isTyping =>
      have : membersOf (stepEv ident un (Ev.typing s' cid isTyping) h) c =
          membersOf h c := by
        simp only [stepEv]
        rw [membersOf, typingHandler_ac]
        rfl
      rw [this] at hu
      obtain ⟨hcne, hsj⟩ := ih hu
      exact ⟨hcne, sinceJoin_snoc hsj _ (fun s hs => by simp [isLeaveOrDisc])⟩
    | fire cid =>
      obtain ⟨hcne, hsj⟩ := ih hu
      exact ⟨hcne, sinceJoin_snoc hsj _ (fun s hs => by simp [isLeaveOrDisc])⟩

/-! ## Claims -/

/-- C1: after a join event for (S, C) is processed the channel-member
table maps C to a set containing S's identity id; after every session of
an identity that had joined C has left C (by an explicit leave or a
disconnect), C's member set no longer contains that identity id; and no
channel key ever maps to an empty member set (an emptied set's key is
deleted).  Holds for any trace, hence also when the identity holds
several simultaneous connections. -/
theorem C1_membership_lifecycle (ident : SessionId → UserId)
    (un : SessionId → String) (t : List Ev) (u : UserId) (c : ChannelId)
    (hleft : ∀ t₁ s f t₂, t = t₁ ++ Ev.join s (some c) f :: t₂ →
      ident s = u → ∃ e ∈ t₂, isLeaveOrDisc s c e = true) :
    (∀ (h : Hub) (s : SessionId) (f : Except Unit (List Message)),
      ident s = u → c ≠ "" →
      u ∈ membersOf (stepEv ident un (Ev.join s (some c) f) h) c)
    ∧ u ∉ membersOf (exec ident un t Hub.init) c
    ∧ ∀ p ∈ (exec ident un t Hub.init).activeChannels, p.2 ≠ [] := by
  refine ⟨?_, ?_, (hubInv_exec ident un t).2⟩
  · intro h s f hid hc
    have hac : (stepEv ident un (Ev.join s (some c) f) h).activeChannels =
        mapSet h.activeChannels c (setAdd (membersOf h c) (ident s)) :=
      joinChannel_ac (ident s) (un s) c f h hc
    have : membersOf (stepEv ident un (Ev.join s (some c) f) h) c =
        setAdd (membersOf h c) (ident s) := by
      rw [membersOf, hac, mapGet_mapSet_self]
      rfl
    rw [this, hid]
    exact mem_setAdd_self _ u
  · intro hu
    obtain ⟨-, t₁, s, f, t₂, heq, hid, hno⟩ := mem_members_exec ident un t u c hu
    obtain ⟨e, he, htrue⟩ := hleft t₁ s f t₂ heq hid
    rw [hno e he] at htrue
    exact Bool.false_ne_true htrue

/-- Witness for C1 at a concrete trace: the identity "alice" joins channel
"c1" on session 0 and then leaves it; afterwards "alice" is not in the
member set, and also appears right after the join. -/
theorem C1_membership_lifecycle_witness :
    ("alice" ∈ membersOf (exec (fun _ => "alice") (fun _ => "Alice")
        [Ev.join 0 (some "c1") (Except.ok [])] Hub.init) "c1")
    ∧ "alice" ∉ membersOf (exec (fun _ => "alice") (fun _ => "Alice")
        [Ev.join 0 (some "c1") (Except.ok []), Ev.leave 0 (some "c1")]
        Hub.init) "c1" := by
  have hleft : ∀ t₁ s f t₂,
      [Ev.join 0 (some "c1") (Except.ok []), Ev.leave 0 (some "c1")] =
        t₁ ++ Ev.join s (some "c1") f :: t₂ →
      (fun _ : SessionId => "alice") s = "alice" →
      ∃ e ∈ t₂, isLeaveOrDisc s "c1" e = true := by
    intro t₁ s f t₂ heq _
    rcases t₁ with _ | ⟨a, t₁⟩
    · simp only [List.nil_append, List.cons.injEq, Ev.join.injEq] at heq
      obtain ⟨⟨hs, -, -⟩, ht₂⟩ := heq
      subst hs
      refine ⟨Ev.leave 0 (some "c1"), by rw [← ht₂]; simp, by decide⟩
    · rcases t₁ with _ | ⟨b, t₁⟩
      · simp at heq
      · simp at heq
  have main := C1_membership_lifecycle (fun _ => "alice") (fun _ => "Alice")
    [Ev.join 0 (some "c1") (Except.ok []), Ev.leave 0 (some "c1")]
    "alice" "c1" hleft
  refine ⟨?_, main.2.1⟩
  have hone := (C1_membership_lifecycle (fun _ => "alice") (fun _ => "Alice")
    [] "alice" "c1" (by intro t₁ s f t₂ heq; simp at heq)).1
  have := hone Hub.init 0 (Except.ok []) rfl (by decide)
  simpa [exec, stepEv] using this

/-! ### Observers and lemmas for the reaction toggle -/


theorem find?_map_id_preserving (msgs : List Message) (mid : String)
    (f : Message → Message) (hf : ∀ m, (f m).id = m.id) :
    (msgs.map f).find? (fun m => m.id = mid) =
      (msgs.find? (fun m => m.id = mid)).map f := by
  induction msgs with
  | nil => simp
  | cons m rest ih =>
    by_cases h : m.id = mid
    · rw [List.map_cons, List.find?_cons_of_pos _ (by simp [hf, h]),
        List.find?_cons_of_pos _ (by simp [h])]
      rfl
    · rw [List.map_cons, List.find?_cons_of_neg _ (by simp [hf, h]),
        List.find?_cons_of_neg _ (by simp [h])]
      exact ih

theorem append_reaction_id (mid : String) (r1 : Reaction) (m' : Message) :
    (if m'.id = mid then { m' with reactions := m'.reactions ++ [r1] }
     else m').id = m'.id := by
  by_cases hh : m'.id = mid <;> simp [hh]

theorem filter_reaction_id (mid : String) (rid : ReactionId) (m' : Message) :
    (if m'.id = mid then
      { m' with reactions := m'.reactions.filter (fun r => r.id ≠ rid) }
     else m').id = m'.id := by
  by_cases hh : m'.id = mid <;> simp [hh]

/-- C2: with a live cache entry whose snapshot holds message `mid` with no
active reaction by `u` of type `rty`, two successive `add-reaction` calls
for the same `(messageId, userId, reactionType)` toggle: the first yields
exactly one active reaction and a `reaction-update` broadcast with action
`"add"`; the second removes it again, broadcasting action `"remove"` with
the same reaction id, leaving zero active reactions — never two. -/
theorem C2_reaction_toggle (u : UserId) (c mid rty : String) (h : Hub)
    (msgs : List Message) (m : Message) (r1 : Reaction)
    (rm1 : Except Unit Unit) (ad2 : Except Unit Reaction)
    (hc : c ≠ "") (hmid : mid ≠ "") (hrty : rty ≠ "")
    (hcache : mapGet h.cache c = some msgs)
    (hfind : msgs.find? (fun m => m.id = mid) = some m)
    (hnone : ∀ r ∈ m.reactions, ¬ (r.userId = u ∧ r.reactionType = rty))
    (hr1u : r1.userId = u) (hr1t : r1.reactionType = rty) :
    (addReaction u (some mid) (some c) (some rty) rm1 (.ok r1) h).out =
      [Emit.reactionUpdate c r1.id mid u rty "add"]
    ∧ activeReactions
        (addReaction u (some mid) (some c) (some rty) rm1 (.ok r1) h).hub
        c mid u rty = 1
    ∧ (addReaction u (some mid) (some c) (some rty) (.ok ()) ad2
        (addReaction u (some mid) (some c) (some rty) rm1 (.ok r1) h).hub).out =
      [Emit.reactionUpdate c r1.id mid u rty "remove"]
    ∧ activeReactions
        (addReaction u (some mid) (some c) (some rty) (.ok ()) ad2
          (addReaction u (some mid) (some c) (some rty) rm1 (.ok r1) h).hub).hub
        c mid u rty = 0 := by
  have hmidm : m.id = mid := by
    have := List.find?_some hfind
    simpa using this
  have hprednone : ∀ r ∈ m.reactions,
      ¬ ((fun r => decide (r.userId = u ∧ r.reactionType = rty)) r = true) := by
    intro r hr
    simpa using hnone r hr
  have hfe1 : findExisting h c mid u rty = none := by
    rw [findExisting, hcache]
    simp only [hfind]
    exact List.find?_eq_none.mpr hprednone
  have hval : ¬ ¬ (truthy (some mid) = true ∧ truthy (some c) = true ∧
      truthy (some rty) = true) := by
    simp [truthy, hmid, hc, hrty]
  have hres1 : addReaction u (some mid) (some c) (some rty) rm1 (.ok r1) h =
      addBranch u c mid rty (.ok r1) [] h := by
    rw [addReaction, if_neg hval]
    simp only [Option.getD_some, hfe1]
  have hhas : mapHas h.cache c = true := by
    rw [mapHas, hcache]
    rfl
  have hgetD : (mapGet h.cache c).getD [] = msgs := by
    rw [hcache]
    rfl
  have hcache1 : (addBranch u c mid rty (.ok r1) [] h).hub.cache =
      mapSet h.cache c (msgs.map (fun m' =>
        if m'.id = mid then { m' with reactions := m'.reactions ++ [r1] }
        else m')) := by
    rw [addBranch]
    simp only [hhas, if_true, hgetD]
  have hfind1 : (msgs.map (fun m' =>
      if m'.id = mid then { m' with reactions := m'.reactions ++ [r1] }
      else m')).find? (fun m => m.id = mid) =
      some { m with reactions := m.reactions ++ [r1] } := by
    rw [find?_map_id_preserving _ _ _ (append_reaction_id mid r1), hfind]
    simp [hmidm]
  have hfilter0 : m.reactions.filter
      (fun r => r.userId = u ∧ r.reactionType = rty) = [] :=
    List.filter_eq_nil_iff.mpr hprednone
  have hpredr1 : (fun r => decide (r.userId = u ∧ r.reactionType = rty)) r1 =
      true := by
    simp [hr1u, hr1t]
  refine ⟨by rw [hres1]; rfl, ?_, ?_, ?_⟩
  · rw [hres1, activeReactions, hcache1, mapGet_mapSet_self]
    simp only [hfind1]
    rw [List.filter_append, hfilter0]
    simp [hr1u, hr1t]
  · rw [hres1]
    have hfe2 : findExisting (addBranch u c mid rty (.ok r1) [] h).hub c mid
        u rty = some r1 := by
      rw [findExisting, hcache1, mapGet_mapSet_self]
      simp only [hfind1]
      show (m.reactions ++ [r1]).find?
        (fun r => r.userId = u ∧ r.reactionType = rty) = some r1
      rw [List.find?_append, List.find?_eq_none.mpr hprednone]
      simp [hr1u, hr1t]
    rw [addReaction, if_neg hval]
    simp only [Option.getD_some, hfe2]
  · rw [hres1]
    have hfe2 : findExisting (addBranch u c mid rty (.ok r1) [] h).hub c mid
        u rty = some r1 := by
      rw [findExisting, hcache1, mapGet_mapSet_self]
      simp only [hfind1]
      show (m.reactions ++ [r1]).find?
        (fun r => r.userId = u ∧ r.reactionType = rty) = some r1
      rw [List.find?_append, List.find?_eq_none.mpr hprednone]
      simp [hr1u, hr1t]
    have hhas2 : mapHas (addBranch u c mid rty (.ok r1) [] h).hub.cache c =
        true := by
      rw [mapHas, hcache1, mapGet_mapSet_self]
      rfl
    have hgetD2 : (mapGet (addBranch u c mid rty (.ok r1) [] h).hub.cache
        c).getD [] = msgs.map (fun m' =>
          if m'.id = mid then { m' with reactions := m'.reactions ++ [r1] }
          else m') := by
      rw [hcache1, mapGet_mapSet_self]
      rfl
    rw [addReaction, if_neg hval]
    simp only [Option.getD_some, hfe2]
    rw [activeReactions]
    simp only [hhas2, if_true, hgetD2, mapGet_mapSet_self]
    rw [find?_map_id_preserving _ _ _ (filter_reaction_id mid r1.id),
      hfind1]
    have hzero : (((m.reactions ++ [r1]).filter (fun r => r.id ≠ r1.id)).filter
        (fun r => r.userId = u ∧ r.reactionType = rty)).length = 0 := by
      rw [List.length_eq_zero]
      apply List.filter_eq_nil_iff.mpr
      intro r hr
      rcases List.mem_filter.mp hr with ⟨hrmem, hrid⟩
      rcases List.mem_append.mp hrmem with hrm | hrr1
      · exact hprednone r hrm
      · rw [List.mem_singleton] at hrr1
        subst hrr1
        simp at hrid
    simpa [hmidm] using hzero

/-- Witness for C2 at concrete inputs: message "m1" in channel "c1" with
no prior reactions; after the first call one "like" by "alice" is active,
after the second none. -/
theorem C2_reaction_toggle_witness :
    activeReactions
      (addReaction "alice" (some "m1") (some "c1") (some "like")
        (Except.ok ()) (Except.ok ⟨"r9", "alice", "like"⟩)
        ⟨[], [("c1", [⟨"m1", "c1", "bob", "hi", [], "t0", []⟩])], []⟩).hub
      "c1" "m1" "alice" "like" = 1
    ∧ activeReactions
        (addReaction "alice" (some "m1") (some "c1") (some "like")
          (Except.ok ()) (Except.error ())
          (addReaction "alice" (some "m1") (some "c1") (some "like")
            (Except.ok ()) (Except.ok ⟨"r9", "alice", "like"⟩)
            ⟨[], [("c1", [⟨"m1", "c1", "bob", "hi", [], "t0", []⟩])],
              []⟩).hub).hub
        "c1" "m1" "alice" "like" = 0 := by
  have main := C2_reaction_toggle "alice" "c1" "m1" "like"
    ⟨[], [("c1", [⟨"m1", "c1", "bob", "hi", [], "t0", []⟩])], []⟩
    [⟨"m1", "c1", "bob", "hi", [], "t0", []⟩]
    ⟨"m1", "c1", "bob", "hi", [], "t0", []⟩
    ⟨"r9", "alice", "like"⟩ (Except.ok ()) (Except.error ())
    (by decide) (by decide) (by decide) rfl rfl (by simp) rfl rfl
  exact ⟨main.2.1, main.2.2.2⟩

/-! ### Cache read-through lemmas for the join handler -/

theorem joinChannel_miss (uid : UserId) (un : String) (c : ChannelId)
    (msgs : List Message) (h : Hub) (hc : c ≠ "")
    (hmiss : mapHas h.cache c = false) :
    joinChannel uid un (some c) (.ok msgs) h =
      ⟨⟨mapSet h.activeChannels c (setAdd (membersOf h c) uid),
        mapSet h.cache c msgs, h.timers ++ [c]⟩,
       [Emit.userJoined c uid un, Emit.channelHistory c msgs,
        Emit.channelJoined c (setAdd (membersOf h c) uid)],
       [StoreCall.fetchMessages c]⟩ := by
  rw [joinChannel, if_neg (by simp [truthy, hc])]
  simp only [Option.getD_some]
  rw [if_neg (by simp [hmiss])]
  rw [membersOf]

theorem joinChannel_hit (uid : UserId) (un : String) (c : ChannelId)
    (msgs : List Message) (f : Except Unit (List Message)) (h : Hub)
    (hc : c ≠ "") (hhit : mapGet h.cache c = some msgs) :
    joinChannel uid un (some c) f h =
      ⟨⟨mapSet h.activeChannels c (setAdd (membersOf h c) uid),
        h.cache, h.timers⟩,
       [Emit.userJoined c uid un, Emit.channelHistory c msgs,
        Emit.channelJoined c (setAdd (membersOf h c) uid)], []⟩ := by
  rw [joinChannel, if_neg (by simp [truthy, hc])]
  simp only [Option.getD_some]
  rw [if_pos (by simp [mapHas, hhit])]
  simp [hhit, membersOf]

/-- C3: the history cache is read-through with a single refetch per miss:
a miss fetches once, stores the snapshot and pushes it; a second get
within the TTL window pushes the identical stored snapshot with no store
call and no cache change; once the expiry timer has fired (entry
deleted), the next get performs exactly one refetch and stores the fresh
snapshot. -/
theorem C3_cache_read_through (uid1 uid2 uid3 : UserId) (un1 un2 un3 : String)
    (c : ChannelId) (msgs msgs2 : List Message)
    (f2 : Except Unit (List Message)) (h : Hub)
    (hc : c ≠ "") (hmiss : mapHas h.cache c = false) :
    (joinChannel uid1 un1 (some c) (.ok msgs) h).calls =
      [StoreCall.fetchMessages c]
    ∧ mapGet (joinChannel uid1 un1 (some c) (.ok msgs) h).hub.cache c =
        some msgs
    ∧ Emit.channelHistory c msgs ∈
        (joinChannel uid1 un1 (some c) (.ok msgs) h).out
    ∧ (joinChannel uid2 un2 (some c) f2
        (joinChannel uid1 un1 (some c) (.ok msgs) h).hub).calls = []
    ∧ Emit.channelHistory c msgs ∈
        (joinChannel uid2 un2 (some c) f2
          (joinChannel uid1 un1 (some c) (.ok msgs) h).hub).out
    ∧ (joinChannel uid2 un2 (some c) f2
        (joinChannel uid1 un1 (some c) (.ok msgs) h).hub).hub.cache =
        (joinChannel uid1 un1 (some c) (.ok msgs) h).hub.cache
    ∧ mapHas (fireExpiry c
        (joinChannel uid1 un1 (some c) (.ok msgs) h).hub).cache c = false
    ∧ (joinChannel uid3 un3 (some c) (.ok msgs2) (fireExpiry c
        (joinChannel uid1 un1 (some c) (.ok msgs) h).hub)).calls =
        [StoreCall.fetchMessages c]
    ∧ mapGet (joinChannel uid3 un3 (some c) (.ok msgs2) (fireExpiry c
        (joinChannel uid1 un1 (some c) (.ok msgs) h).hub)).hub.cache c =
        some msgs2 := by
  have h1 := joinChannel_miss uid1 un1 c msgs h hc hmiss
  have hhit2 : mapGet (joinChannel uid1 un1 (some c) (.ok msgs) h).hub.cache
      c = some msgs := by
    rw [h1]
    exact mapGet_mapSet_self _ _ _
  have h2 := joinChannel_hit uid2 un2 c msgs f2
    (joinChannel uid1 un1 (some c) (.ok msgs) h).hub hc hhit2
  have hmiss3 : mapHas (fireExpiry c
      (joinChannel uid1 un1 (some c) (.ok msgs) h).hub).cache c = false := by
    show mapHas (mapDel _ c) c = false
    rw [mapHas, mapGet_mapDel_self]
    rfl
  have h3 := joinChannel_miss uid3 un3 c msgs2
    (fireExpiry c (joinChannel uid1 un1 (some c) (.ok msgs) h).hub) hc hmiss3
  refine ⟨by rw [h1], hhit2, by rw [h1]; simp, by rw [h2],
    by rw [h2]; simp, by rw [h2], hmiss3, by rw [h3], ?_⟩
  rw [h3]
  exact mapGet_mapSet_self _ _ _

/-- Witness for C3 at concrete inputs (empty initial cache, channel
"c1"). -/
theorem C3_cache_read_through_witness :
    mapGet (joinChannel "alice" "A" (some "c1")
        (.ok [⟨"m1", "c1", "bob", "hi", [], "t0", []⟩]) Hub.init).hub.cache
      "c1" = some [⟨"m1", "c1", "bob", "hi", [], "t0", []⟩]
    ∧ (joinChannel "bob" "B" (some "c1") (.error ())
        (joinChannel "alice" "A" (some "c1")
          (.ok [⟨"m1", "c1", "bob", "hi", [], "t0", []⟩]) Hub.init).hub).calls
      = [] := by
  have main := C3_cache_read_through "alice" "bob" "carol" "A" "B" "C" "c1"
    [⟨"m1", "c1", "bob", "hi", [], "t0", []⟩] [] (.error ()) Hub.init
    (by decide) (by decide)
  exact ⟨main.2.1, main.2.2.2.1⟩

/-- C4 counterexample: the expiry timer scheduled when "c1" was first
cached fires after a `refresh-messages` has already replaced the entry
with a newer snapshot; the firing timer deletes that newer entry.  Before
the timer fires the cache holds the refreshed snapshot; after it fires
the key is gone — the timer did not check that the entry is the one it
was scheduled for. -/
theorem C4_expiry_counterexample :
    mapGet (exec (fun _ => "u") (fun _ => "U")
      [Ev.join 0 (some "c1") (Except.ok [⟨"m1", "c1", "u", "a", [], "t", []⟩]),
       Ev.refresh 0 (some "c1")
         (Except.ok [⟨"m2", "c1", "u", "b", [], "t", []⟩])]
      Hub.init).cache "c1" =
      some [⟨"m2", "c1", "u", "b", [], "t", []⟩]
    ∧ mapGet (exec (fun _ => "u") (fun _ => "U")
      [Ev.join 0 (some "c1") (Except.ok [⟨"m1", "c1", "u", "a", [], "t", []⟩]),
       Ev.refresh 0 (some "c1")
         (Except.ok [⟨"m2", "c1", "u", "b", [], "t", []⟩]),
       Ev.fire "c1"]
      Hub.init).cache "c1" = none := by
  constructor <;> rfl

/-- C4 amended: the expiry timer is unconditional — when it fires it
deletes whatever entry the channel currently has, even one installed
after the timer was scheduled; and `refresh-messages` neither cancels
pending timers nor schedules a new one, so a refreshed entry is exactly
what a dangling timer deletes. -/
theorem C4_expiry_unconditional (c : ChannelId) (h : Hub) :
    mapGet (fireExpiry c h).cache c = none
    ∧ (∀ (uid : UserId) (f : Except Unit (List Message)),
        (refreshMessages uid (some c) f h).hub.timers = h.timers) := by
  refine ⟨mapGet_mapDel_self _ _, fun uid f => ?_⟩
  rw [refreshMessages]
  split
  · rfl
  · cases f <;> rfl

/-- Witness for the amended C4: a concrete refreshed entry is destroyed
by the dangling timer. -/
theorem C4_expiry_unconditional_witness :
    mapGet (fireExpiry "c1"
      ⟨[], [("c1", [⟨"m2", "c1", "u", "b", [], "t", []⟩])], ["c1"]⟩).cache
      "c1" = none ∧
    (refreshMessages "u" (some "c1")
      (Except.ok [⟨"m2", "c1", "u", "b", [], "t", []⟩])
      ⟨[], [("c1", [⟨"m1", "c1", "u", "a", [], "t", []⟩])], ["c1"]⟩).hub.timers
      = ["c1"] :=
  ⟨(C4_expiry_unconditional "c1"
      ⟨[], [("c1", [⟨"m2", "c1", "u", "b", [], "t", []⟩])], ["c1"]⟩).1,
   (C4_expiry_unconditional "c1"
      ⟨[], [("c1", [⟨"m1", "c1", "u", "a", [], "t", []⟩])], ["c1"]⟩).2 "u"
      (Except.ok [⟨"m2", "c1", "u", "b", [], "t", []⟩])⟩

/-- C5 counterexample: channel "c1" is cached with message "m1" carrying
an active "like" by "alice"; `add-reaction` finds it and tries the
removal, whose store call fails.  The claim demands: error to the
initiator only, no broadcast, cache unchanged.  Instead the handler falls
through to the add branch, which succeeds: a `reaction-update` with
action "add" is broadcast to the whole channel, the cache gains a second
reaction, and no error event is emitted. -/
theorem C5_store_failure_counterexample :
    (addReaction "alice" (some "m1") (some "c1") (some "like")
      (Except.error ()) (Except.ok ⟨"r2", "alice", "like"⟩)
      ⟨[], [("c1", [⟨"m1", "c1", "bob", "hi", [], "t0",
        [⟨"r0", "alice", "like"⟩]⟩])], []⟩).out =
      [Emit.reactionUpdate "c1" "r2" "m1" "alice" "like" "add"]
    ∧ (addReaction "alice" (some "m1") (some "c1") (some "like")
        (Except.error ()) (Except.ok ⟨"r2", "alice", "like"⟩)
        ⟨[], [("c1", [⟨"m1", "c1", "bob", "hi", [], "t0",
          [⟨"r0", "alice", "like"⟩]⟩])], []⟩).hub.cache ≠
      [("c1", [⟨"m1", "c1", "bob", "hi", [], "t0",
        [⟨"r0", "alice", "like"⟩]⟩])] := by
  constructor
  · rfl
  · decide

/-- C5 amended: when `createMessage` fails in `send-message`, and when the
store call of the explicit `remove-reaction` handler fails, the error is
reported to the initiating session only, nothing is broadcast and the hub
state is exactly as before.  For the removal step of the `add-reaction`
toggle, however, a failure is not reported: the handler falls through to
the add branch — only if that `addReaction` call also fails is an error
sent to the initiator with no broadcast and unchanged state; if it
succeeds, an `action: "add"` update is broadcast and the cache is
mutated. -/
theorem C5_store_failure_behavior (uid : UserId) (c content mid rty rid : String)
    (att : List String) (h : Hub) (ex : Reaction)
    (hc : c ≠ "") (hcont : content ≠ "") (hmid : mid ≠ "") (hrty : rty ≠ "")
    (hrid : rid ≠ "")
    (hex : findExisting h c mid uid rty = some ex) :
    newMessage uid (some c) (some content) att (.error ()) h =
      ⟨h, [Emit.errOut (some "SAVE_MESSAGE_ERROR") "Failed to save message"],
        [StoreCall.createMsg c content]⟩
    ∧ removeReactionHandler uid (some mid) (some rid) (some c) (some rty)
        (.error ()) h =
      ⟨h, [Emit.errOut (some "REACTION_ERROR") "Failed to remove reaction"],
        [StoreCall.removeReact mid rid uid rty]⟩
    ∧ addReaction uid (some mid) (some c) (some rty) (.error ()) (.error ()) h =
      ⟨h, [Emit.errOut (some "REACTION_ERROR") "Failed to add reaction"],
        [StoreCall.removeReact mid ex.id uid rty,
         StoreCall.addReact mid uid rty]⟩
    ∧ ∀ saved : Reaction,
        (addReaction uid (some mid) (some c) (some rty) (.error ())
          (.ok saved) h).out =
        [Emit.reactionUpdate c saved.id mid uid rty "add"] := by
  refine ⟨?_, ?_, ?_, ?_⟩
  · rw [newMessage, if_neg (by simp [truthy, hc, hcont])]
    rfl
  · rw [removeReactionHandler,
      if_neg (by simp [truthy, hmid, hrid, hc, hrty])]
    rfl
  · rw [addReaction, if_neg (by simp [truthy, hmid, hc, hrty])]
    simp only [Option.getD_some, hex]
    rfl
  · intro saved
    rw [addReaction, if_neg (by simp [truthy, hmid, hc, hrty])]
    simp only [Option.getD_some, hex]
    rfl

/-- Witness for the amended C5 at concrete inputs. -/
theorem C5_store_failure_behavior_witness :
    newMessage "alice" (some "c1") (some "hey") [] (.error ())
      ⟨[], [("c1", [⟨"m1", "c1", "bob", "hi", [], "t0",
        [⟨"r0", "alice", "like"⟩]⟩])], []⟩ =
      ⟨⟨[], [("c1", [⟨"m1", "c1", "bob", "hi", [], "t0",
          [⟨"r0", "alice", "like"⟩]⟩])], []⟩,
        [Emit.errOut (some "SAVE_MESSAGE_ERROR") "Failed to save message"],
        [StoreCall.createMsg "c1" "hey"]⟩
    ∧ (addReaction "alice" (some "m1") (some "c1") (some "like")
        (.error ()) (.error ())
        ⟨[], [("c1", [⟨"m1", "c1", "bob", "hi", [], "t0",
          [⟨"r0", "alice", "like"⟩]⟩])], []⟩).out =
      [Emit.errOut (some "REACTION_ERROR") "Failed to add reaction"] := by
  have main := C5_store_failure_behavior "alice" "c1" "hey" "m1" "like" "r0"
    [] ⟨[], [("c1", [⟨"m1", "c1", "bob", "hi", [], "t0",
      [⟨"r0", "alice", "like"⟩]⟩])], []⟩ ⟨"r0", "alice", "like"⟩
    (by decide) (by decide) (by decide) (by decide) (by decide) (by decide)
  exact ⟨main.1, by rw [main.2.2.1]⟩

theorem mapGet_eq_some_mem {β : Type} (l : List (String × β)) (k : String)
    (v : β) (hg : mapGet l k = some v) : (k, v) ∈ l := by
  induction l with
  | nil => simp [mapGet] at hg
  | cons p rest ih =>
    by_cases hp : p.1 = k
    · rw [mapGet, if_pos hp, Option.some.injEq] at hg
      have hpkv : p = (k, v) := by
        cases p
        simp_all
      rw [← hpkv]
      exact List.mem_cons_self _ _
    · rw [mapGet, if_neg hp] at hg
      exact List.mem_cons_of_mem _ (ih hg)

theorem not_mem_discChan_out (uid : UserId) (l : List (ChannelId × List UserId))
    (q : ChannelId × List UserId) (hq : q ∈ l.filterMap (discChan uid)) :
    uid ∉ q.2 := by
  rw [List.mem_filterMap] at hq
  obtain ⟨p, hp, hfp⟩ := hq
  by_cases hm : uid ∈ p.2
  · by_cases hz : (setDel p.2 uid).length = 0
    · simp [discChan, hm, hz] at hfp
    · simp only [discChan, if_pos hm, if_neg hz, Option.some.injEq] at hfp
      rw [← hfp]
      intro hmem
      have : uid ∈ p.2 ∧ uid ≠ uid := (mem_setDel_iff _ _ _).mp hmem
      exact this.2 rfl
  · simp only [discChan, if_neg hm, Option.some.injEq] at hfp
    exact hfp ▸ hm

/-- C6 counterexample: the registries are keyed by identity id, not by
connection.  With two simultaneous connections (sessions 1 and 2) of the
same identity "u", the second `connection` handler displaces the first's
entry in `activeUsers` (one entry remains, holding session 2).  On the
hub side, with both connections joined to "c1", a single disconnect of
one connection removes the identity from the channel table entirely —
the other connection's membership does not survive. -/
theorem C6_sessions_counterexample :
    (ctrlConnect "u" 2 (ctrlConnect "u" 1 Ctrl.init)).activeUsers = [("u", 2)]
    ∧ (disconnectCleanup "u"
        (joinChannel "u" "U" (some "c1") (Except.ok [])
          (joinChannel "u" "U" (some "c1") (Except.ok [])
            Hub.init).hub).hub).hub.activeChannels = [] := by
  constructor <;> rfl

/-- C6 amended: all registries are keyed by the identity id.  A second
connection of the same identity overwrites the registry entry, a
disconnect deletes the identity's entries outright, and the disconnect
cleanup removes the identity from every channel's member set — the state
is per-identity, so simultaneous connections of one identity are not
independent. -/
theorem C6_identity_keyed (u : UserId) (s1 s2 : SessionId) (st : Ctrl)
    (h : Hub) (c : ChannelId) :
    mapGet (ctrlConnect u s2 (ctrlConnect u s1 st)).activeUsers u = some s2
    ∧ mapGet (ctrlDisconnect u st).activeUsers u = none
    ∧ mapGet (ctrlDisconnect u st).userChannels u = none
    ∧ u ∉ membersOf (disconnectCleanup u h).hub c := by
  refine ⟨mapGet_mapSet_self _ _ _, mapGet_mapDel_self _ _,
    mapGet_mapDel_self _ _, ?_⟩
  rw [membersOf]
  cases hg : mapGet (disconnectCleanup u h).hub.activeChannels c with
  | none => simp
  | some v =>
    have hv : (c, v) ∈ h.activeChannels.filterMap (discChan u) :=
      mapGet_eq_some_mem _ _ _ hg
    have := not_mem_discChan_out u h.activeChannels (c, v) hv
    simpa using this

/-- C7 counterexample: a `leave-channel` and a `typing` event with the
required `channelId` field missing emit no events at all — in particular
no caller-directed error event, contrary to the claim that every event
with a missing required field produces one. -/
theorem C7_missing_field_counterexample :
    (leaveChannel "u" none ⟨[("c1", ["u"])], [], []⟩).out = []
    ∧ (typingHandler "u" "U" none (some true) ⟨[("c1", ["u"])], [], []⟩).out
      = [] := by
  constructor <;> rfl

/-- C7 amended: `join-channel`, `new-message`, `add-reaction`,
`remove-reaction` and `refresh-messages` respond to any missing (falsy)
required field of their payload with a caller-directed error event,
mutate no state and broadcast nothing; `leave-channel` and `typing`
instead ignore a missing (falsy) `channelId` silently — no error, no
mutation, no broadcast. -/
theorem C7_validation (uid : UserId) (un : String) (h : Hub)
    (cid mid rid rty content : Option String) (att : List String)
    (f : Except Unit (List Message)) (res : Except Unit Message)
    (rm : Except Unit Unit) (ad : Except Unit Reaction) (ity : Option Bool) :
    (truthy cid = false →
      joinChannel uid un cid f h =
        ⟨h, [Emit.errOut none "Channel ID is required"], []⟩)
    ∧ (truthy cid = false ∨ truthy content = false →
      newMessage uid cid content att res h =
        ⟨h, [Emit.errOut none "Channel ID and content are required"], []⟩)
    ∧ (truthy mid = false ∨ truthy cid = false ∨ truthy rty = false →
      addReaction uid mid cid rty rm ad h =
        ⟨h, [Emit.errOut none
          "Message ID, Channel ID and reaction type are required"], []⟩)
    ∧ (truthy mid = false ∨ truthy rid = false ∨ truthy cid = false ∨
        truthy rty = false →
      removeReactionHandler uid mid rid cid rty rm h =
        ⟨h, [Emit.errOut none
          "Message ID, Reaction ID, Channel ID and reaction type are required"],
          []⟩)
    ∧ (truthy cid = false →
      refreshMessages uid cid f h =
        ⟨h, [Emit.errOut none "Channel ID is required"], []⟩)
    ∧ (truthy cid = false → leaveChannel uid cid h = ⟨h, [], []⟩)
    ∧ (truthy cid = false → typingHandler uid un cid ity h = ⟨h, [], []⟩) := by
  refine ⟨?_, ?_, ?_, ?_, ?_, ?_, ?_⟩
  · intro hcid
    rw [joinChannel, if_pos (by simp [hcid])]
  · intro hmiss
    have hcond : ¬ (truthy cid = true ∧ truthy content = true) := by
      rcases hmiss with hh | hh <;> simp [hh]
    rw [newMessage, if_pos hcond]
  · intro hmiss
    have hcond : ¬ (truthy mid = true ∧ truthy cid = true ∧
        truthy rty = true) := by
      rcases hmiss with hh | hh | hh <;> simp [hh]
    rw [addReaction, if_pos hcond]
  · intro hmiss
    have hcond : ¬ (truthy mid = true ∧ truthy rid = true ∧
        truthy cid = true ∧ truthy rty = true) := by
      rcases hmiss with hh | hh | hh | hh <;> simp [hh]
    rw [removeReactionHandler, if_pos hcond]
  · intro hcid
    rw [refreshMessages, if_pos (by simp [hcid])]
  · intro hcid
    rw [leaveChannel, if_neg (by simp [hcid])]
  · intro hcid
    rw [typingHandler, if_neg (by simp [hcid])]

/-- Witness for the amended C7: `channelId` present while another
required field is missing (content for `new-message`, messageId for
`add-reaction`, reactionId for `remove-reaction`), plus the
missing-`channelId` cases for `join-channel` and `leave-channel`. -/
theorem C7_validation_witness :
    newMessage "u" (some "c1") none [] (Except.error ()) Hub.init =
      ⟨Hub.init, [Emit.errOut none "Channel ID and content are required"], []⟩
    ∧ addReaction "u" none (some "c1") (some "like") (Except.ok ())
        (Except.error ()) Hub.init =
      ⟨Hub.init, [Emit.errOut none
        "Message ID, Channel ID and reaction type are required"], []⟩
    ∧ removeReactionHandler "u" (some "m1") none (some "c1") (some "like")
        (Except.ok ()) Hub.init =
      ⟨Hub.init, [Emit.errOut none
        "Message ID, Reaction ID, Channel ID and reaction type are required"],
        []⟩
    ∧ joinChannel "u" "U" none (Except.ok []) Hub.init =
      ⟨Hub.init, [Emit.errOut none "Channel ID is required"], []⟩
    ∧ leaveChannel "u" none Hub.init = ⟨Hub.init, [], []⟩ := by
  have mcontent := C7_validation "u" "U" Hub.init (some "c1") (some "m1")
    (some "r1") (some "like") none [] (Except.ok []) (Except.error ())
    (Except.ok ()) (Except.error ()) none
  have mmid := C7_validation "u" "U" Hub.init (some "c1") none (some "r1")
    (some "like") (some "hi") [] (Except.ok []) (Except.error ())
    (Except.ok ()) (Except.error ()) none
  have mrid := C7_validation "u" "U" Hub.init (some "c1") (some "m1") none
    (some "like") (some "hi") [] (Except.ok []) (Except.error ())
    (Except.ok ()) (Except.error ()) none
  have mcid := C7_validation "u" "U" Hub.init none (some "m1") (some "r1")
    (some "like") (some "hi") [] (Except.ok []) (Except.error ())
    (Except.ok ()) (Except.error ()) none
  exact ⟨mcontent.2.1 (Or.inr rfl), mmid.2.2.1 (Or.inl rfl),
    mrid.2.2.2.1 (Or.inr (Or.inl rfl)), mcid.1 rfl,
    mcid.2.2.2.2.2.1 rfl⟩

/-- C8: if channel `c` has a live cache entry, a successful
`send-message` appends the stored message to the entry in place (expiry
timers untouched), so an immediately following get on `c` serves the list
including the new message from cache with no store call; with no entry,
`send-message` leaves the cache alone. -/
theorem C8_append_consistency (uid uid2 : UserId) (un2 : String)
    (c content : String) (att : List String) (saved : Message)
    (msgs : List Message) (f2 : Except Unit (List Message)) (h : Hub)
    (hc : c ≠ "") (hcont : content ≠ "")
    (hcache : mapGet h.cache c = some msgs) :
    mapGet (newMessage uid (some c) (some content) att (.ok saved)
      h).hub.cache c = some (msgs ++ [saved])
    ∧ (newMessage uid (some c) (some content) att (.ok saved) h).hub.timers =
      h.timers
    ∧ (joinChannel uid2 un2 (some c) f2
        (newMessage uid (some c) (some content) att (.ok saved) h).hub).calls
      = []
    ∧ Emit.channelHistory c (msgs ++ [saved]) ∈
        (joinChannel uid2 un2 (some c) f2
          (newMessage uid (some c) (some content) att (.ok saved) h).hub).out
    ∧ saved ∈ msgs ++ [saved]
    ∧ ∀ h' : Hub, mapHas h'.cache c = false →
        (newMessage uid (some c) (some content) att (.ok saved) h').hub.cache
          = h'.cache := by
  have hres : newMessage uid (some c) (some content) att (.ok saved) h =
      ⟨⟨h.activeChannels, mapSet h.cache c (msgs ++ [saved]), h.timers⟩,
        [Emit.msgBroadcast c saved, Emit.messageSent saved.id],
        [StoreCall.createMsg c content]⟩ := by
    rw [newMessage, if_neg (by simp [truthy, hc, hcont])]
    simp only [Option.getD_some, mapHas, hcache, Option.isSome_some,
      if_true]
  have hhit : mapGet (newMessage uid (some c) (some content) att (.ok saved)
      h).hub.cache c = some (msgs ++ [saved]) := by
    rw [hres]
    exact mapGet_mapSet_self _ _ _
  have hjoin := joinChannel_hit uid2 un2 c (msgs ++ [saved]) f2
    (newMessage uid (some c) (some content) att (.ok saved) h).hub hc hhit
  refine ⟨hhit, by rw [hres], by rw [hjoin], by rw [hjoin]; simp,
    by simp, ?_⟩
  intro h' hmiss'
  rw [newMessage, if_neg (by simp [truthy, hc, hcont])]
  simp only [Option.getD_some, hmiss']
  rfl

/-- Witness for C8 at concrete inputs. -/
theorem C8_append_consistency_witness :
    mapGet (newMessage "alice" (some "c1") (some "hey") []
      (.ok ⟨"m2", "c1", "alice", "hey", [], "t1", []⟩)
      ⟨[], [("c1", [⟨"m1", "c1", "bob", "hi", [], "t0", []⟩])],
        ["c1"]⟩).hub.cache "c1" =
      some [⟨"m1", "c1", "bob", "hi", [], "t0", []⟩,
        ⟨"m2", "c1", "alice", "hey", [], "t1", []⟩]
    ∧ (newMessage "alice" (some "c1") (some "hey") []
        (.ok ⟨"m2", "c1", "alice", "hey", [], "t1", []⟩)
        ⟨[], [("c1", [⟨"m1", "c1", "bob", "hi", [], "t0", []⟩])],
          ["c1"]⟩).hub.timers = ["c1"] := by
  have main := C8_append_consistency "alice" "bob" "B" "c1" "hey" []
    ⟨"m2", "c1", "alice", "hey", [], "t1", []⟩
    [⟨"m1", "c1", "bob", "hi", [], "t0", []⟩] (Except.error ())
    ⟨[], [("c1", [⟨"m1", "c1", "bob", "hi", [], "t0", []⟩])], ["c1"]⟩
    (by decide) (by decide) rfl
  exact ⟨main.1, main.2.1⟩

/-- C9: every failing connection attempt — missing credential, credential
the verifier rejects, verifier failure, or claims that cannot be decoded
after the verifier affirmed validity — is rejected before session
creation: the middleware yields an error and the session registry is
untouched. -/
theorem C9_auth_rejection (tk : String)
    (validate : String → Except String Bool)
    (decode : String → Option TokenClaims) (sid : SessionId) (st : Ctrl)
    (em : String) :
    ((connectionAttempt none validate decode sid st).1 = st
      ∧ ∃ e, (connectionAttempt none validate decode sid st).2 =
          Except.error e)
    ∧ (validate tk = .ok false →
        (connectionAttempt (some tk) validate decode sid st).1 = st
        ∧ ∃ e, (connectionAttempt (some tk) validate decode sid st).2 =
            Except.error e)
    ∧ (validate tk = .error em →
        (connectionAttempt (some tk) validate decode sid st).1 = st
        ∧ ∃ e, (connectionAttempt (some tk) validate decode sid st).2 =
            Except.error e)
    ∧ (validate tk = .ok true → decode tk = none →
        (connectionAttempt (some tk) validate decode sid st).1 = st
        ∧ ∃ e, (connectionAttempt (some tk) validate decode sid st).2 =
            Except.error e) := by
  refine ⟨⟨rfl, "Authentication error: No token provided", rfl⟩, ?_, ?_, ?_⟩
  · intro hv
    rw [connectionAttempt, authenticateSocket, hv]
    exact ⟨rfl, "Authentication error: Invalid token", rfl⟩
  · intro hv
    rw [connectionAttempt, authenticateSocket, hv]
    exact ⟨rfl, "Authentication error: " ++ em, rfl⟩
  · intro hv hd
    rw [connectionAttempt, authenticateSocket, hv, hd]
    exact ⟨rfl, "Authentication error: Cannot read properties of null", rfl⟩

/-- Witness for C9 with a concrete verifier and decoder. -/
theorem C9_auth_rejection_witness :
    (connectionAttempt none (fun _ => Except.ok true) (fun _ => none) 7
      Ctrl.init).1 = Ctrl.init
    ∧ (connectionAttempt (some "tok") (fun _ => Except.ok true)
        (fun _ => none) 7 Ctrl.init).1 = Ctrl.init := by
  have main := C9_auth_rejection "tok" (fun _ => Except.ok true)
    (fun _ => none) 7 Ctrl.init "boom"
  exact ⟨main.1.1, (main.2.2.2 rfl rfl).1⟩

/-- C10: a `leave-channel` whose channel id is missing, or names a
channel with no entry in the channel-member table, is a complete silent
no-op: no error, no `user-left` broadcast, no store call, and the hub
state (membership, cache, timers) is exactly unchanged. -/
theorem C10_leave_noop (uid : UserId) (cid : Option ChannelId) (h : Hub)
    (hm : cid = none ∨ mapHas h.activeChannels (cid.getD "") = false) :
    leaveChannel uid cid h = ⟨h, [], []⟩ := by
  rw [leaveChannel, if_neg]
  rintro ⟨h1, h2⟩
  rcases hm with rfl | hmiss
  · simp [truthy] at h1
  · rw [hmiss] at h2
    exact Bool.false_ne_true h2

/-- Witness for C10: both the missing-field case and the absent-channel
case at concrete inputs. -/
theorem C10_leave_noop_witness :
    leaveChannel "u" none ⟨[("c1", ["u"])], [], []⟩ =
      ⟨⟨[("c1", ["u"])], [], []⟩, [], []⟩
    ∧ leaveChannel "u" (some "c9") ⟨[("c1", ["u"])], [], []⟩ =
      ⟨⟨[("c1", ["u"])], [], []⟩, [], []⟩ :=
  ⟨C10_leave_noop "u" none ⟨[("c1", ["u"])], [], []⟩ (Or.inl rfl),
   C10_leave_noop "u" (some "c9") ⟨[("c1", ["u"])], [], []⟩
     (Or.inr (by decide))⟩

end MmConn
